import Mathlib

/-!
Shallow embedding of the VMware-Inventory exporter (`main.go`).

The core under verification is the inventory-aggregation pipeline:
  * `buildParentNames` / `parentCalls`  — the cluster-name resolver loop (main.go 84-98),
  * `buildAnonClusters`                 — the anonymized cluster-label pass (main.go 100-114),
  * `processVsanHost` / `buildVsanInfo` — the per-host vSAN disk aggregation (main.go 116-184),
  * `buildRow` / `buildRows`            — the CSV row builder (main.go 196-253).

External collaborators (the vCenter property collector and the vSAN disk query)
are modelled as oracles: `resolve : String → Option String` for parent-name
retrieval (`none` = the RetrieveOne call fails) and a per-host `VsanEnv` for the
vSAN config fetch and disk query.  Go maps with string keys are modelled as
association lists (`mapLookup`) or, for the vsanInfo map whose zero-value
lookups matter, as total functions updated pointwise.  Machine integers are
modelled as `ℤ` (`Int.tdiv` is Go's truncating integer division); the disk
capacity sums stay far below 2^63 for physical disks, so int64 wrap-around is
not modelled.  The `float64` field `capacityTiB` is modelled as `ℚ`:
`float64(capacityBytes) / 2^40` is exact for `|capacityBytes| < 2^53` because
the conversion of such an int64 to float64 is exact and division by a power of
two only shifts the exponent.  Go's `fmt.Sprintf("%.1f", ·)` renders the
correctly-rounded one-decimal form of the exact float value, ties to even;
`formatTiB1` models that.
-/

/-! ## Definitions -/

/-- Decimal digits of `n`, least significant first; the fuel argument drives the
recursion (`fuel ≥ n` produces all digits). -/

def decDigitsRev : ℕ → ℕ → List ℕ
  | 0, _ => []
  | _ + 1, 0 => []
  | fuel + 1, n + 1 => (n + 1) % 10 :: decDigitsRev fuel ((n + 1) / 10)

/-- Value of a least-significant-first digit list. -/

def ofDigitsRev : List ℕ → ℕ
  | [] => 0
  | d :: t => d + 10 * ofDigitsRev t

/-- Decimal rendering of a natural number, as produced by Go's `%d` verb and
`strconv.Itoa` on non-negative values. -/

def natToString (n : ℕ) : String :=
  if n = 0 then "0" else ⟨((decDigitsRev n n).map Nat.digitChar).reverse⟩

/-- Decimal rendering of an integer (Go `strconv.Itoa` / `strconv.FormatInt`). -/

def intToString (i : ℤ) : String :=
  if i < 0 then "-" ++ natToString i.natAbs else natToString i.toNat

/-- The label `anonLabel i` is `fmt.Sprintf("Cluster %d", i)` (main.go line 111). -/

def anonLabel (i : ℕ) : String := "Cluster " ++ natToString i

/-- Lookup in an association list; models indexing a Go `map[string]string`
(`none` = key absent, which reads as the zero value `""` via `getD`). -/

def mapLookup (k : String) : List (String × String) → Option String
  | [] => none
  | (k', v) :: t => if k = k' then some v else mapLookup k t

/-- Disk geometry `HostDiskDimensionsLba`: `BlockSize int32`, `Block int64`. -/

structure DiskDimensionsLba where
  blockSize : ℤ
  block : ℤ
deriving DecidableEq

/-- A SCSI disk as read by the aggregator: its capacity geometry and whether its
`VsanDiskInfo` pointer is populated (cluster-membership metadata). -/

structure ScsiDisk where
  capacity : DiskDimensionsLba
  vsanDiskInfoSome : Bool
deriving DecidableEq

/-- One entry of `res.Returnval` from `QueryDisksForVsan`. -/

structure VsanDiskResult where
  disk : ScsiDisk
deriving DecidableEq

/-- One OSA disk group (`VsanHostDiskMapping`): the code reads only `NonSsd`. -/

structure DiskMapping where
  nonSsd : List ScsiDisk
deriving DecidableEq

/-- Storage info `VsanHostConfigInfoStorageInfo`: the disk-mapping list. -/

structure VsanStorageInfo where
  diskMapping : List DiskMapping
deriving DecidableEq

/-- The vSAN host configuration fields the code reads:
`Config.VsanEsaEnabled *bool` and `Config.StorageInfo *...`. -/

structure VsanConfigInfo where
  vsanEsaEnabled : Option Bool
  storageInfo : Option VsanStorageInfo
deriving DecidableEq

/-- Hardware fields read from `HostHardwareInfo`: `CpuInfo.NumCpuPackages int16`,
`CpuInfo.NumCpuCores int16`, `MemorySize int64`, `CpuPkg[i].Description`. -/

structure HardwareInfo where
  numCpuPackages : ℤ
  numCpuCores : ℤ
  memorySize : ℤ
  cpuPkgDescriptions : List String
deriving DecidableEq

/-- Summary fields read from `HostSystem.Summary`: `Config.Name`, `Config.Product.Version`
(product pointer may be nil), `Hardware.Model` (hardware pointer may be nil). -/

structure HostSummary where
  name : String
  productVersion : Option String
  hardwareModel : Option String
deriving DecidableEq

/-- A host as retrieved from the container view: summary, detailed hardware
(nillable), parent back-reference MoRef value (nillable), and whether
`ConfigManager.VsanSystem` is non-nil. -/

structure HostSystem where
  summary : HostSummary
  hardware : Option HardwareInfo
  parent : Option String
  vsanSystem : Bool
deriving DecidableEq

/-- Outcome of the two external vSAN calls for one host:
`retrieveVsanSystem` is the `pc.RetrieveOne` of the HostVsanSystem config
(`none` = error), `queryDisksForVsan` is the ESA disk query (`none` = error). -/

structure VsanEnv where
  retrieveVsanSystem : Option VsanConfigInfo
  queryDisksForVsan : Option (List VsanDiskResult)
deriving DecidableEq

/-- The parent-name loop (main.go 84-98): for each host with a parent whose
back-reference is not yet in the map, call the resolver; on success record
`(backref, name)`, on failure log and continue without recording. -/

def buildParentNamesAux (resolve : String → Option String) :
    List HostSystem → List (String × String) → List (String × String)
  | [], pn => pn
  | h :: t, pn =>
    match h.parent with
    | none => buildParentNamesAux resolve t pn
    | some p =>
      if (mapLookup p pn).isSome then buildParentNamesAux resolve t pn
      else
        match resolve p with
        | none => buildParentNamesAux resolve t pn
        | some nm => buildParentNamesAux resolve t (pn ++ [(p, nm)])

def buildParentNames (resolve : String → Option String) (hosts : List HostSystem) :
    List (String × String) :=
  buildParentNamesAux resolve hosts []

/-- The back-references passed to `pc.RetrieveOne` by the loop of main.go 84-98,
in call order (one list element per call made). -/

def parentCallsAux (resolve : String → Option String) :
    List HostSystem → List (String × String) → List String
  | [], _ => []
  | h :: t, pn =>
    match h.parent with
    | none => parentCallsAux resolve t pn
    | some p =>
      if (mapLookup p pn).isSome then parentCallsAux resolve t pn
      else
        p :: (match resolve p with
              | none => parentCallsAux resolve t pn
              | some nm => parentCallsAux resolve t (pn ++ [(p, nm)]))

def parentCalls (resolve : String → Option String) (hosts : List HostSystem) : List String :=
  parentCallsAux resolve hosts []

/-- The anonymization pass (main.go 100-114): for each host with a parent, look
up its real cluster name (zero value `""` when absent) and, the first time each
real name is seen, append `(realName, anonLabel (idx+1))` — the code increments
`idx` and then formats it. -/

def buildAnonAux (pn : List (String × String)) :
    List HostSystem → List (String × String) → ℕ → List (String × String)
  | [], ac, _ => ac
  | h :: t, ac, idx =>
    match h.parent with
    | none => buildAnonAux pn t ac idx
    | some p =>
      let realName := (mapLookup p pn).getD ""
      if (mapLookup realName ac).isSome then buildAnonAux pn t ac idx
      else buildAnonAux pn t (ac ++ [(realName, anonLabel (idx + 1))]) (idx + 1)

def buildAnonClusters (pn : List (String × String)) (hosts : List HostSystem) :
    List (String × String) :=
  buildAnonAux pn hosts [] 0

/-- The sequence of real cluster names the anonymization pass reads, one per
host that has a parent, in host-list order. -/

def realNamesSeq (pn : List (String × String)) : List HostSystem → List String
  | [] => []
  | h :: t =>
    match h.parent with
    | none => realNamesSeq pn t
    | some p => (mapLookup p pn).getD "" :: realNamesSeq pn t

/-- First-occurrence deduplication, keeping the first appearance of each
element in order. -/

def firstOccur : List String → List String
  | [] => []
  | n :: t => n :: firstOccur (t.filter (fun x => decide (x ≠ n)))
termination_by l => l.length
decreasing_by
  simp only [List.length_cons]
  exact Nat.lt_succ_of_le (List.length_filter_le _ _)

/-- Pair the names with the labels `anonLabel (idx+1), anonLabel (idx+2), …`. -/

def labelFrom (idx : ℕ) : List String → List (String × String)
  | [] => []
  | n :: t => (n, anonLabel (idx + 1)) :: labelFrom (idx + 1) t

/-- The per-host record stored in the `vsanInfo` map (main.go 117-122).
`capacityTiB` is the exact value of the `float64` field (see header note). -/

structure VsanHostInfoR where
  capacityTiB : ℚ
  totalDisks : ℕ
  cacheDisks : ℕ
  clusterType : String
deriving DecidableEq

/-- The Go zero value of `vsanHostInfo` (what a missing map key reads as). -/

def vsanHostInfoZero : VsanHostInfoR :=
  { capacityTiB := 0, totalDisks := 0, cacheDisks := 0, clusterType := "" }

/-- The conversion `float64(capacityBytes) / (1024*1024*1024*1024)` (main.go line 182). -/

def capacityTiBOfBytes (cb : ℤ) : ℚ :=
  (cb : ℚ) / (1024 * 1024 * 1024 * 1024)

/-- The ESA disk fold (main.go 158-165): disks whose `VsanDiskInfo` is populated
are in use; count them and accumulate `BlockSize * Block`. -/

def esaFold (rs : List VsanDiskResult) : ℕ × ℤ :=
  rs.foldl
    (fun acc dr =>
      if dr.disk.vsanDiskInfoSome then
        (acc.1 + 1, acc.2 + dr.disk.capacity.blockSize * dr.disk.capacity.block)
      else acc)
    (0, 0)

/-- The OSA accounting (main.go 172-179): `cacheDisks = len(DiskMapping)`,
`totalDisks = Σ len(dm.NonSsd)`, bytes `= Σ Σ BlockSize * Block`. -/

def osaTotalDisks (si : VsanStorageInfo) : ℕ :=
  (si.diskMapping.map (fun dm => dm.nonSsd.length)).sum

def osaCapacityBytes (si : VsanStorageInfo) : ℤ :=
  (si.diskMapping.map
    (fun dm => (dm.nonSsd.map (fun d => d.capacity.blockSize * d.capacity.block)).sum)).sum

/-- The entry one iteration of the loop of main.go 124-184 stores for host `h`
(`none` = the iteration hits a `continue` and stores nothing):
  * no `VsanSystem` reference               → `continue` (line 126-128);
  * config fetch fails                      → warn, `continue` (line 131-134);
  * ESA (capability flag present and true)  → store `"ESA"` facts; a failed disk
    query only skips the accumulation (line 151-153), counts stay 0;
  * OSA with absent/empty `DiskMapping`     → `continue` (line 169-171);
  * OSA otherwise                           → store `"OSA"` facts. -/

def hostVsanEntry (env : VsanEnv) (h : HostSystem) : Option VsanHostInfoR :=
  if h.vsanSystem = false then none
  else
    match env.retrieveVsanSystem with
    | none => none
    | some cfg =>
      if cfg.vsanEsaEnabled = some true then
        let acc :=
          match env.queryDisksForVsan with
          | none => ((0 : ℕ), (0 : ℤ))
          | some rs => esaFold rs
        some { capacityTiB := capacityTiBOfBytes acc.2, totalDisks := acc.1,
               cacheDisks := 0, clusterType := "ESA" }
      else
        match cfg.storageInfo with
        | none => none
        | some si =>
          if si.diskMapping = [] then none
          else
            some { capacityTiB := capacityTiBOfBytes (osaCapacityBytes si),
                   totalDisks := osaTotalDisks si,
                   cacheDisks := si.diskMapping.length, clusterType := "OSA" }

/-- One iteration of the vsanInfo loop: `vsanInfo[h.Summary.Config.Name] = info`
(line 183) overwrites any earlier entry under the same name; a skipped host
leaves the map unchanged. -/

def processVsanHost (venv : ℕ → VsanEnv) (m : String → VsanHostInfoR) (i : ℕ)
    (h : HostSystem) : String → VsanHostInfoR :=
  match hostVsanEntry (venv i) h with
  | none => m
  | some info => Function.update m h.summary.name info

/-- The whole vsanInfo loop (main.go 124-184); `venv i` is the outcome of the
external calls made in iteration `i`.  The map is total: a lookup of an absent
name yields the Go zero value. -/

def buildVsanInfoAux (venv : ℕ → VsanEnv) :
    ℕ → List HostSystem → (String → VsanHostInfoR) → (String → VsanHostInfoR)
  | _, [], m => m
  | i, h :: t, m => buildVsanInfoAux venv (i + 1) t (processVsanHost venv m i h)

def buildVsanInfo (venv : ℕ → VsanEnv) (hosts : List HostSystem) :
    String → VsanHostInfoR :=
  buildVsanInfoAux venv 0 hosts (fun _ => vsanHostInfoZero)

/-- Nearest integer to `10*q` for `q ≥ 0`, ties to even: the scaled digit string
that `%.1f` prints for the exactly-represented value `q`. -/

def round1HalfEven (q : ℚ) : ℕ :=
  let fl : ℤ := ⌊10 * q⌋
  let r : ℚ := 10 * q - fl
  let n : ℕ := fl.toNat
  if r < 1 / 2 then n else if 1 / 2 < r then n + 1 else if n % 2 = 0 then n else n + 1

/-- Go's `fmt.Sprintf("%.1f", q)` on the exact value `q`: correctly rounded to
one decimal, ties to even, rendered as `⟨int part⟩.⟨digit⟩`. -/

def formatTiB1 (q : ℚ) : String :=
  if q < 0 then
    "-" ++ (natToString (round1HalfEven (-q) / 10) ++ "." ++
            natToString (round1HalfEven (-q) % 10))
  else
    natToString (round1HalfEven q / 10) ++ "." ++ natToString (round1HalfEven q % 10)

/-- Modelled from the spec claim (C3): the value truncated — not rounded — to
one decimal place, for `q ≥ 0`. -/

def truncFormat1 (q : ℚ) : String :=
  natToString ((⌊10 * q⌋).toNat / 10) ++ "." ++ natToString ((⌊10 * q⌋).toNat % 10)

/-- One CSV data row (main.go 196-252), as the list of 13 rendered cells. -/

def buildRow (anonymize : Bool) (pn anon : List (String × String))
    (vinfo : String → VsanHostInfoR) (i : ℕ) (h : HostSystem) : List String :=
  let hostname := if anonymize then "Host " ++ natToString (i + 1) else h.summary.name
  let cluster :=
    match h.parent with
    | none => ""
    | some p =>
      let c := (mapLookup p pn).getD ""
      if anonymize then (mapLookup c anon).getD "" else c
  let serverModel := (h.summary.hardwareModel).getD ""
  let esxiVersion := (h.summary.productVersion).getD ""
  let cpuModel :=
    match h.hardware with
    | none => ""
    | some hw => match hw.cpuPkgDescriptions with | [] => "" | d :: _ => d
  let sockets : ℤ := match h.hardware with | none => 0 | some hw => hw.numCpuPackages
  let totalCores : ℤ := match h.hardware with | none => 0 | some hw => hw.numCpuCores
  let coresPerSocket : ℤ :=
    match h.hardware with
    | none => 0
    | some hw =>
      if 0 < hw.numCpuPackages then Int.tdiv hw.numCpuCores hw.numCpuPackages else 0
  let memoryGB : ℤ :=
    match h.hardware with
    | none => 0
    | some hw => Int.tdiv hw.memorySize (1024 * 1024 * 1024)
  let info := vinfo h.summary.name
  [hostname, cluster, serverModel, esxiVersion, cpuModel,
   intToString sockets, intToString coresPerSocket, intToString totalCores,
   intToString memoryGB, info.clusterType, natToString info.totalDisks,
   natToString info.cacheDisks, formatTiB1 info.capacityTiB]

/-- The row loop (main.go 196-253), carrying the 0-based loop index. -/

def buildRowsAux (anonymize : Bool) (pn anon : List (String × String))
    (vinfo : String → VsanHostInfoR) : ℕ → List HostSystem → List (List String)
  | _, [] => []
  | i, h :: t =>
    buildRow anonymize pn anon vinfo i h :: buildRowsAux anonymize pn anon vinfo (i + 1) t

/-- The whole run after host retrieval: resolve parent names, build the
anonymization map when requested (main.go 101-114: the map stays empty
otherwise), aggregate vSAN facts, then build the rows in host-list order. -/

def runInventory (anonymize : Bool) (resolve : String → Option String)
    (venv : ℕ → VsanEnv) (hosts : List HostSystem) : List (List String) :=
  let pn := buildParentNames resolve hosts
  let anon := if anonymize then buildAnonClusters pn hosts else []
  let vinfo := buildVsanInfo venv hosts
  buildRowsAux anonymize pn anon vinfo 0 hosts

/-- Witness for C7 at a concrete host with 2 sockets and 32 cores. -/

def host7 : HostSystem :=
  { summary := { name := "hw-host", productVersion := none, hardwareModel := none },
    hardware := some { numCpuPackages := 2, numCpuCores := 32, memorySize := 0,
                       cpuPkgDescriptions := [] },
    parent := none, vsanSystem := false }

/-- A capacity disk of exactly 2^40 bytes (512-byte blocks, 2^31 blocks),
not carrying vSAN membership metadata. -/

def diskA : ScsiDisk :=
  { capacity := { blockSize := 512, block := 2147483648 }, vsanDiskInfoSome := false }

/-- An in-use ESA disk of exactly 2^40 bytes. -/

def diskB : ScsiDisk :=
  { capacity := { blockSize := 512, block := 2147483648 }, vsanDiskInfoSome := true }

def si4 : VsanStorageInfo :=
  { diskMapping := [{ nonSsd := [diskA, diskA] }, { nonSsd := [diskA] }] }

def cfg4 : VsanConfigInfo := { vsanEsaEnabled := some false, storageInfo := some si4 }

def env4 : VsanEnv := { retrieveVsanSystem := some cfg4, queryDisksForVsan := none }

def host4 : HostSystem :=
  { summary := { name := "osa-host", productVersion := none, hardwareModel := none },
    hardware := none, parent := none, vsanSystem := true }

def cfg5 : VsanConfigInfo := { vsanEsaEnabled := some true, storageInfo := none }

def rs5 : List VsanDiskResult := [{ disk := diskB }, { disk := diskA }]

def env5 : VsanEnv :=
  { retrieveVsanSystem := some cfg5, queryDisksForVsan := some rs5 }

def host5 : HostSystem :=
  { summary := { name := "esa-host", productVersion := none, hardwareModel := none },
    hardware := none, parent := none, vsanSystem := true }

def host8 : HostSystem :=
  { summary := { name := "plain-host", productVersion := none, hardwareModel := none },
    hardware := none, parent := none, vsanSystem := false }

def env8 : VsanEnv := { retrieveVsanSystem := none, queryDisksForVsan := none }

def cfg9 : VsanConfigInfo := { vsanEsaEnabled := some true, storageInfo := none }

def env9 : VsanEnv := { retrieveVsanSystem := some cfg9, queryDisksForVsan := none }

def host9 : HostSystem :=
  { summary := { name := "esa-fail-host", productVersion := none, hardwareModel := none },
    hardware := none, parent := none, vsanSystem := true }

/-- Second host of the duplicate-name pair: stores ESA facts under the shared
name and therefore overwrites the first host's entry. -/

def hostDupA : HostSystem :=
  { summary := { name := "dup-host", productVersion := none, hardwareModel := none },
    hardware := none, parent := none, vsanSystem := true }

def hostDupB : HostSystem :=
  { summary := { name := "dup-host", productVersion := some "8.0.2", hardwareModel := none },
    hardware := none, parent := none, vsanSystem := true }

def envDup : VsanEnv :=
  { retrieveVsanSystem := some cfg5, queryDisksForVsan := some [] }

/-- The entry `hostDupB` stores: ESA with no disks. -/

def infoDup : VsanHostInfoR :=
  { capacityTiB := capacityTiBOfBytes (0, (0 : ℤ)).2, totalDisks := (0, (0 : ℤ)).1,
    cacheDisks := 0, clusterType := "ESA" }

/-- Hosts sharing the unresolvable back-reference "g", for the C1 and C2
counterexamples. -/

def hostG1 : HostSystem :=
  { summary := { name := "h1", productVersion := none, hardwareModel := none },
    hardware := none, parent := some "g", vsanSystem := false }

def hostG2 : HostSystem :=
  { summary := { name := "h2", productVersion := none, hardwareModel := none },
    hardware := none, parent := some "g", vsanSystem := false }

/-- Fixtures for the C6 witness: two hosts in clusters named Alpha and Beta. -/

def pn6 : List (String × String) := [("ga", "Alpha"), ("gb", "Beta")]

def host6a : HostSystem :=
  { summary := { name := "a1", productVersion := none, hardwareModel := none },
    hardware := none, parent := some "ga", vsanSystem := false }

def host6b : HostSystem :=
  { summary := { name := "b1", productVersion := none, hardwareModel := none },
    hardware := none, parent := some "gb", vsanSystem := false }

/-! ## Theorems -/

theorem ofDigitsRev_decDigitsRev (fuel : ℕ) :
    ∀ n : ℕ, n ≤ fuel → ofDigitsRev (decDigitsRev fuel n) = n := by
  induction fuel with
  | zero => intro n hn; interval_cases n; rfl
  | succ fuel ih =>
    intro n hn
    match n with
    | 0 => rfl
    | m + 1 =>
      have hdiv : (m + 1) / 10 ≤ fuel := by
        have := Nat.div_lt_self (Nat.succ_pos m) (by norm_num : 1 < 10)
        omega
      simp only [decDigitsRev, ofDigitsRev, ih _ hdiv]
      omega

theorem decDigitsRev_lt (fuel : ℕ) :
    ∀ n d : ℕ, d ∈ decDigitsRev fuel n → d < 10 := by
  induction fuel with
  | zero => intro n d hd; simp [decDigitsRev] at hd
  | succ fuel ih =>
    intro n d hd
    match n with
    | 0 => simp [decDigitsRev] at hd
    | m + 1 =>
      simp only [decDigitsRev, List.mem_cons] at hd
      rcases hd with h | h
      · subst h; exact Nat.mod_lt _ (by norm_num)
      · exact ih _ _ h

theorem digitChar_inj_lt (a b : ℕ) (ha : a < 10) (hb : b < 10)
    (h : Nat.digitChar a = Nat.digitChar b) : a = b := by
  interval_cases a <;> interval_cases b <;> simp_all [Nat.digitChar]

theorem map_digitChar_inj :
    ∀ l₁ l₂ : List ℕ, (∀ d ∈ l₁, d < 10) → (∀ d ∈ l₂, d < 10) →
      l₁.map Nat.digitChar = l₂.map Nat.digitChar → l₁ = l₂ := by
  intro l₁
  induction l₁ with
  | nil => intro l₂ _ _ h; cases l₂ <;> simp_all
  | cons a t ih =>
    intro l₂ h₁ h₂ h
    cases l₂ with
    | nil => simp at h
    | cons b t₂ =>
      simp only [List.map_cons, List.cons.injEq] at h
      have hab : a = b :=
        digitChar_inj_lt a b (h₁ a (by simp)) (h₂ b (by simp)) h.1
      have := ih t₂ (fun d hd => h₁ d (by simp [hd])) (fun d hd => h₂ d (by simp [hd])) h.2
      simp [hab, this]

theorem natToString_inj : Function.Injective natToString := by
  intro n m h
  unfold natToString at h
  by_cases hn : n = 0 <;> by_cases hm : m = 0
  · omega
  · exfalso
    subst hn
    rw [if_pos rfl, if_neg hm] at h
    have hdata := congrArg String.data h
    have h0 : String.data "0" = ['0'] := rfl
    rw [h0] at hdata
    have hrev : (decDigitsRev m m).map Nat.digitChar = ['0'] := by
      have := congrArg List.reverse hdata
      simpa using this.symm
    match hd : decDigitsRev m m with
    | [] => rw [hd] at hrev; simp at hrev
    | d :: rest =>
      rw [hd] at hrev
      simp only [List.map_cons, List.cons.injEq] at hrev
      have hrest : rest = [] := List.map_eq_nil_iff.mp hrev.2
      have hdlt : d < 10 := decDigitsRev_lt m m d (by rw [hd]; simp)
      have hd0 : d = 0 := digitChar_inj_lt d 0 hdlt (by norm_num) (by simpa using hrev.1)
      have hval := ofDigitsRev_decDigitsRev m m le_rfl
      rw [hd, hrest, hd0] at hval
      simp [ofDigitsRev] at hval
      exact hm hval.symm
  · exfalso
    subst hm
    rw [if_pos rfl, if_neg hn] at h
    have hdata := congrArg String.data h
    have h0 : String.data "0" = ['0'] := rfl
    rw [h0] at hdata
    have hrev : (decDigitsRev n n).map Nat.digitChar = ['0'] := by
      have := congrArg List.reverse hdata
      simpa using this
    match hd : decDigitsRev n n with
    | [] => rw [hd] at hrev; simp at hrev
    | d :: rest =>
      rw [hd] at hrev
      simp only [List.map_cons, List.cons.injEq] at hrev
      have hrest : rest = [] := List.map_eq_nil_iff.mp hrev.2
      have hdlt : d < 10 := decDigitsRev_lt n n d (by rw [hd]; simp)
      have hd0 : d = 0 := digitChar_inj_lt d 0 hdlt (by norm_num) (by simpa using hrev.1)
      have hval := ofDigitsRev_decDigitsRev n n le_rfl
      rw [hd, hrest, hd0] at hval
      simp [ofDigitsRev] at hval
      exact hn hval.symm
  · simp only [if_neg hn, if_neg hm] at h
    have hdata := congrArg String.data h
    have hmap : (decDigitsRev n n).map Nat.digitChar = (decDigitsRev m m).map Nat.digitChar := by
      have := congrArg List.reverse hdata
      simpa using this
    have hdig := map_digitChar_inj _ _
      (fun d hd => decDigitsRev_lt n n d hd) (fun d hd => decDigitsRev_lt m m d hd) hmap
    have h₁ := ofDigitsRev_decDigitsRev n n le_rfl
    have h₂ := ofDigitsRev_decDigitsRev m m le_rfl
    rw [hdig, h₂] at h₁
    exact h₁.symm

theorem anonLabel_inj : Function.Injective anonLabel := by
  intro a b h
  apply natToString_inj
  have hdata := congrArg String.data h
  simp only [anonLabel, String.data_append] at hdata
  exact congrArg String.mk (List.append_cancel_left hdata)

theorem anonLabel_ne_empty (i : ℕ) : anonLabel i ≠ "" := by
  intro h
  have hlen := congrArg String.length h
  rw [anonLabel, String.length_append] at hlen
  have h8 : ("Cluster " : String).length = 8 := rfl
  have h0 : ("" : String).length = 0 := rfl
  omega

theorem mapLookup_append (k : String) (a b : List (String × String)) :
    mapLookup k (a ++ b) =
      match mapLookup k a with
      | some v => some v
      | none => mapLookup k b := by
  induction a with
  | nil => simp [mapLookup]
  | cons x t ih =>
    by_cases h : k = x.1
    · simp [mapLookup, h]
    · simpa [mapLookup, h] using ih

theorem esaFold_go (rs : List VsanDiskResult) :
    ∀ p : ℕ × ℤ,
      rs.foldl
        (fun acc dr =>
          if dr.disk.vsanDiskInfoSome then
            (acc.1 + 1, acc.2 + dr.disk.capacity.blockSize * dr.disk.capacity.block)
          else acc) p =
      (p.1 + rs.countP (fun dr => dr.disk.vsanDiskInfoSome),
       p.2 + ((rs.filter (fun dr => dr.disk.vsanDiskInfoSome)).map
         (fun dr => dr.disk.capacity.blockSize * dr.disk.capacity.block)).sum) := by
  induction rs with
  | nil => intro p; simp
  | cons dr t ih =>
    intro p
    by_cases hdr : dr.disk.vsanDiskInfoSome = true
    · simp only [List.foldl_cons, hdr, if_true, ih, List.countP_cons, List.filter_cons,
        List.map_cons, List.sum_cons]
      refine Prod.ext ?_ ?_ <;> simp [hdr] <;> omega
    · simp only [List.foldl_cons, hdr, if_false, ih, List.countP_cons, List.filter_cons]
      refine Prod.ext ?_ ?_ <;> simp [hdr]

theorem esaFold_eq (rs : List VsanDiskResult) :
    esaFold rs = (rs.countP (fun dr => dr.disk.vsanDiskInfoSome),
      ((rs.filter (fun dr => dr.disk.vsanDiskInfoSome)).map
        (fun dr => dr.disk.capacity.blockSize * dr.disk.capacity.block)).sum) := by
  simpa [esaFold] using esaFold_go rs (0, 0)

theorem buildVsanInfoAux_append (venv : ℕ → VsanEnv) (h : HostSystem) :
    ∀ (l : List HostSystem) (k : ℕ) (m : String → VsanHostInfoR),
      buildVsanInfoAux venv k (l ++ [h]) m =
        processVsanHost venv (buildVsanInfoAux venv k l m) (k + l.length) h := by
  intro l
  induction l with
  | nil => intro k m; simp [buildVsanInfoAux]
  | cons x t ih =>
    intro k m
    simp only [List.cons_append, buildVsanInfoAux, List.length_cons, List.append_eq]
    rw [ih]
    have e : k + 1 + t.length = k + (t.length + 1) := by omega
    rw [e]

theorem buildRowsAux_length (anonymize : Bool) (pn anon : List (String × String))
    (vinfo : String → VsanHostInfoR) :
    ∀ (hosts : List HostSystem) (k : ℕ),
      (buildRowsAux anonymize pn anon vinfo k hosts).length = hosts.length := by
  intro hosts
  induction hosts with
  | nil => intro k; rfl
  | cons h t ih => intro k; simp [buildRowsAux, ih]

theorem buildRowsAux_getElem (anonymize : Bool) (pn anon : List (String × String))
    (vinfo : String → VsanHostInfoR) :
    ∀ (hosts : List HostSystem) (k i : ℕ),
      (buildRowsAux anonymize pn anon vinfo k hosts)[i]? =
        (hosts[i]?).map (buildRow anonymize pn anon vinfo (k + i)) := by
  intro hosts
  induction hosts with
  | nil => intro k i; simp [buildRowsAux]
  | cons h t ih =>
    intro k i
    match i with
    | 0 => simp [buildRowsAux]
    | j + 1 =>
      simp only [buildRowsAux, List.getElem?_cons_succ, ih (k + 1) j]
      have e : k + 1 + j = k + (j + 1) := by omega
      rw [e]

/-- C4: for every host under the legacy disk-group architecture (OSA) with a
non-empty disk-mapping list, the stored facts have cache-disk count = number of
disk-mapping entries, capacity-disk count = sum of non-cache (NonSsd) disks over
the entries, and raw capacity = sum of BlockSize*Block over exactly those disks. -/

theorem claim4_osa_accounting (venv : ℕ → VsanEnv) (m : String → VsanHostInfoR)
    (i : ℕ) (h : HostSystem) (cfg : VsanConfigInfo) (si : VsanStorageInfo)
    (href : h.vsanSystem = true)
    (hcfg : (venv i).retrieveVsanSystem = some cfg)
    (hesa : cfg.vsanEsaEnabled ≠ some true)
    (hsi : cfg.storageInfo = some si)
    (hne : si.diskMapping ≠ []) :
    processVsanHost venv m i h h.summary.name =
      { capacityTiB := capacityTiBOfBytes
          ((si.diskMapping.map
            (fun dm => (dm.nonSsd.map
              (fun d => d.capacity.blockSize * d.capacity.block)).sum)).sum),
        totalDisks := (si.diskMapping.map (fun dm => dm.nonSsd.length)).sum,
        cacheDisks := si.diskMapping.length,
        clusterType := "OSA" } := by
  have hentry : hostVsanEntry (venv i) h =
      some { capacityTiB := capacityTiBOfBytes
               ((si.diskMapping.map
                 (fun dm => (dm.nonSsd.map
                   (fun d => d.capacity.blockSize * d.capacity.block)).sum)).sum),
             totalDisks := (si.diskMapping.map (fun dm => dm.nonSsd.length)).sum,
             cacheDisks := si.diskMapping.length,
             clusterType := "OSA" } := by
    simp only [hostVsanEntry, href, hcfg]
    rw [if_neg (by simp), if_neg hesa]
    simp [hsi, hne, osaCapacityBytes, osaTotalDisks]
  simp [processVsanHost, hentry, Function.update_same]

/-- C5: for every host under the disk-aggregate architecture (ESA) whose disk
query succeeds, cache-disk count is 0, capacity-disk count is the number of
enumerated disks with populated cluster-membership metadata (`VsanDiskInfo`),
and raw capacity is the sum of BlockSize*Block over exactly those disks. -/

theorem claim5_esa_accounting (venv : ℕ → VsanEnv) (m : String → VsanHostInfoR)
    (i : ℕ) (h : HostSystem) (cfg : VsanConfigInfo) (rs : List VsanDiskResult)
    (href : h.vsanSystem = true)
    (hcfg : (venv i).retrieveVsanSystem = some cfg)
    (hesa : cfg.vsanEsaEnabled = some true)
    (hq : (venv i).queryDisksForVsan = some rs) :
    processVsanHost venv m i h h.summary.name =
      { capacityTiB := capacityTiBOfBytes
          (((rs.filter (fun dr => dr.disk.vsanDiskInfoSome)).map
            (fun dr => dr.disk.capacity.blockSize * dr.disk.capacity.block)).sum),
        totalDisks := rs.countP (fun dr => dr.disk.vsanDiskInfoSome),
        cacheDisks := 0,
        clusterType := "ESA" } := by
  simp only [processVsanHost, hostVsanEntry, href, hcfg, hesa, hq,
    Bool.true_eq_false, if_false, if_pos rfl, esaFold_eq]
  simp [Function.update_same]

/-- C8: a host with no storage-subsystem reference, and a host under OSA whose
disk-mapping list is absent or empty, both store nothing: the map is unchanged,
and a lookup of such a host's name in a fresh run reads the zero value —
architecture NONE (empty tag), 0 capacity disks, 0 cache disks, capacity 0. -/

theorem claim8_storage_none (env : VsanEnv) (h : HostSystem)
    (hcase : h.vsanSystem = false ∨
      (h.vsanSystem = true ∧ ∃ cfg, env.retrieveVsanSystem = some cfg ∧
        cfg.vsanEsaEnabled ≠ some true ∧
        (cfg.storageInfo = none ∨ ∃ si, cfg.storageInfo = some si ∧ si.diskMapping = []))) :
    hostVsanEntry env h = none ∧
    (∀ (venv : ℕ → VsanEnv) (m : String → VsanHostInfoR) (i : ℕ),
      venv i = env → processVsanHost venv m i h = m) ∧
    buildVsanInfo (fun _ => env) [h] h.summary.name = vsanHostInfoZero ∧
    vsanHostInfoZero =
      { capacityTiB := 0, totalDisks := 0, cacheDisks := 0, clusterType := "" } := by
  have hentry : hostVsanEntry env h = none := by
    rcases hcase with href | ⟨href, cfg, hcfg, hesa, hstor⟩
    · simp [hostVsanEntry, href]
    · rcases hstor with hnone | ⟨si, hsi, hempty⟩
      · simp [hostVsanEntry, href, hcfg, hesa, hnone]
      · simp [hostVsanEntry, href, hcfg, hesa, hsi, hempty]
  refine ⟨hentry, ?_, ?_, rfl⟩
  · intro venv m i hvi
    simp [processVsanHost, hvi, hentry]
  · simp [buildVsanInfo, buildVsanInfoAux, processVsanHost, hentry]

/-- C9: a host whose config fetch succeeds with the ESA capability flag set but
whose disk query fails keeps the ESA tag with zero counts and capacity 0 — it is
not degraded to architecture NONE. -/

theorem claim9_esa_query_failure (env : VsanEnv) (h : HostSystem) (cfg : VsanConfigInfo)
    (href : h.vsanSystem = true)
    (hcfg : env.retrieveVsanSystem = some cfg)
    (hesa : cfg.vsanEsaEnabled = some true)
    (hq : env.queryDisksForVsan = none) :
    hostVsanEntry env h =
      some { capacityTiB := 0, totalDisks := 0, cacheDisks := 0, clusterType := "ESA" } ∧
    (∀ (venv : ℕ → VsanEnv) (m : String → VsanHostInfoR) (i : ℕ),
      venv i = env → processVsanHost venv m i h h.summary.name =
        { capacityTiB := 0, totalDisks := 0, cacheDisks := 0, clusterType := "ESA" }) := by
  have hzero : capacityTiBOfBytes 0 = 0 := by
    unfold capacityTiBOfBytes
    norm_num
  have hentry : hostVsanEntry env h =
      some { capacityTiB := 0, totalDisks := 0, cacheDisks := 0, clusterType := "ESA" } := by
    simp [hostVsanEntry, href, hcfg, hesa, hq, hzero]
  refine ⟨hentry, ?_⟩
  intro venv m i hvi
  simp [processVsanHost, hvi, hentry, Function.update_same]

theorem buildRow_cell6 (anonymize : Bool) (pn anon : List (String × String))
    (vinfo : String → VsanHostInfoR) (i : ℕ) (h : HostSystem) :
    (buildRow anonymize pn anon vinfo i h)[6]? =
      some (intToString
        (match h.hardware with
          | none => (0 : ℤ)
          | some hw =>
            if 0 < hw.numCpuPackages then Int.tdiv hw.numCpuCores hw.numCpuPackages
            else 0)) := rfl

theorem buildRow_cell9 (anonymize : Bool) (pn anon : List (String × String))
    (vinfo : String → VsanHostInfoR) (i : ℕ) (h : HostSystem) :
    (buildRow anonymize pn anon vinfo i h)[9]? = some (vinfo h.summary.name).clusterType := rfl

theorem buildRow_cell10 (anonymize : Bool) (pn anon : List (String × String))
    (vinfo : String → VsanHostInfoR) (i : ℕ) (h : HostSystem) :
    (buildRow anonymize pn anon vinfo i h)[10]? =
      some (natToString (vinfo h.summary.name).totalDisks) := rfl

theorem buildRow_cell11 (anonymize : Bool) (pn anon : List (String × String))
    (vinfo : String → VsanHostInfoR) (i : ℕ) (h : HostSystem) :
    (buildRow anonymize pn anon vinfo i h)[11]? =
      some (natToString (vinfo h.summary.name).cacheDisks) := rfl

theorem buildRow_cell12 (anonymize : Bool) (pn anon : List (String × String))
    (vinfo : String → VsanHostInfoR) (i : ℕ) (h : HostSystem) :
    (buildRow anonymize pn anon vinfo i h)[12]? =
      some (formatTiB1 (vinfo h.summary.name).capacityTiB) := rfl

/-- C7: the Cores per Socket cell renders the truncating integer division of
total cores by socket count when the socket count is positive, and "0" when the
socket count is zero or the hardware substructure is absent (the division is
never taken with a non-positive socket count). -/

theorem claim7_cores_per_socket (anonymize : Bool) (pn anon : List (String × String))
    (vinfo : String → VsanHostInfoR) (i : ℕ) (h : HostSystem) :
    (h.hardware = none → (buildRow anonymize pn anon vinfo i h)[6]? = some "0") ∧
    (∀ hw, h.hardware = some hw → hw.numCpuPackages = 0 →
      (buildRow anonymize pn anon vinfo i h)[6]? = some "0") ∧
    (∀ hw, h.hardware = some hw → 0 < hw.numCpuPackages →
      (buildRow anonymize pn anon vinfo i h)[6]? =
        some (intToString (Int.tdiv hw.numCpuCores hw.numCpuPackages))) := by
  refine ⟨?_, ?_, ?_⟩
  · intro hnone
    rw [buildRow_cell6, hnone]
    decide
  · intro hw hsome hzero
    rw [buildRow_cell6, hsome]
    show some (intToString
      (if 0 < hw.numCpuPackages then Int.tdiv hw.numCpuCores hw.numCpuPackages else 0)) =
        some "0"
    rw [hzero, if_neg (lt_irrefl 0)]
    decide
  · intro hw hsome hpos
    rw [buildRow_cell6, hsome]
    simp [if_pos hpos]

theorem claim7_witness :
    (buildRow false [] [] (fun _ => vsanHostInfoZero) 0 host7)[6]? = some "16" := by
  have h := (claim7_cores_per_socket false [] [] (fun _ => vsanHostInfoZero) 0 host7).2.2
    { numCpuPackages := 2, numCpuCores := 32, memorySize := 0, cpuPkgDescriptions := [] }
    rfl (by decide)
  rw [h]
  decide

/-- C10: storage facts are joined to rows by host display name, not identity:
rows of hosts sharing a name carry identical storage cells, and a later host
that stores facts under a name overwrites whatever an earlier host stored. -/

theorem claim10_join_by_name :
    (∀ (anonymize : Bool) (pn anon : List (String × String))
       (vinfo : String → VsanHostInfoR) (hosts : List HostSystem) (i j : ℕ)
       (hi hj : HostSystem),
       hosts[i]? = some hi → hosts[j]? = some hj →
       hi.summary.name = hj.summary.name →
       ∀ c, c = 9 ∨ c = 10 ∨ c = 11 ∨ c = 12 →
         ((buildRowsAux anonymize pn anon vinfo 0 hosts)[i]?.bind (fun r => r[c]?)) =
         ((buildRowsAux anonymize pn anon vinfo 0 hosts)[j]?.bind (fun r => r[c]?))) ∧
    (∀ (venv : ℕ → VsanEnv) (hosts : List HostSystem) (h₂ : HostSystem)
       (info : VsanHostInfoR),
       hostVsanEntry (venv hosts.length) h₂ = some info →
       buildVsanInfo venv (hosts ++ [h₂]) h₂.summary.name = info) := by
  constructor
  · intro anonymize pn anon vinfo hosts i j hi hj hgi hgj hname c hc
    rw [buildRowsAux_getElem, buildRowsAux_getElem, hgi, hgj]
    simp only [Option.map_some', Option.some_bind]
    rcases hc with rfl | rfl | rfl | rfl
    · rw [buildRow_cell9, buildRow_cell9, hname]
    · rw [buildRow_cell10, buildRow_cell10, hname]
    · rw [buildRow_cell11, buildRow_cell11, hname]
    · rw [buildRow_cell12, buildRow_cell12, hname]
  · intro venv hosts h₂ info hentry
    unfold buildVsanInfo
    rw [buildVsanInfoAux_append]
    simp only [Nat.zero_add, processVsanHost, hentry, Function.update_same]

theorem claim4_witness :
    host4.vsanSystem = true ∧ cfg4.vsanEsaEnabled ≠ some true ∧
    cfg4.storageInfo = some si4 ∧ si4.diskMapping ≠ [] ∧
    processVsanHost (fun _ => env4) (fun _ => vsanHostInfoZero) 0 host4
        host4.summary.name =
      { capacityTiB := capacityTiBOfBytes
          ((si4.diskMapping.map
            (fun dm => (dm.nonSsd.map
              (fun d => d.capacity.blockSize * d.capacity.block)).sum)).sum),
        totalDisks := (si4.diskMapping.map (fun dm => dm.nonSsd.length)).sum,
        cacheDisks := si4.diskMapping.length,
        clusterType := "OSA" } :=
  ⟨rfl, by decide, rfl, by decide,
   claim4_osa_accounting (fun _ => env4) (fun _ => vsanHostInfoZero) 0 host4 cfg4 si4
     rfl rfl (by decide) rfl (by decide)⟩

theorem claim5_witness :
    host5.vsanSystem = true ∧ cfg5.vsanEsaEnabled = some true ∧
    env5.queryDisksForVsan = some rs5 ∧
    processVsanHost (fun _ => env5) (fun _ => vsanHostInfoZero) 0 host5
        host5.summary.name =
      { capacityTiB := capacityTiBOfBytes
          (((rs5.filter (fun dr => dr.disk.vsanDiskInfoSome)).map
            (fun dr => dr.disk.capacity.blockSize * dr.disk.capacity.block)).sum),
        totalDisks := rs5.countP (fun dr => dr.disk.vsanDiskInfoSome),
        cacheDisks := 0,
        clusterType := "ESA" } :=
  ⟨rfl, rfl, rfl,
   claim5_esa_accounting (fun _ => env5) (fun _ => vsanHostInfoZero) 0 host5 cfg5
     rs5 rfl rfl rfl rfl⟩

theorem claim8_witness :
    host8.vsanSystem = false ∧
    (hostVsanEntry env8 host8 = none ∧
     (∀ (venv : ℕ → VsanEnv) (m : String → VsanHostInfoR) (i : ℕ),
       venv i = env8 → processVsanHost venv m i host8 = m) ∧
     buildVsanInfo (fun _ => env8) [host8] host8.summary.name = vsanHostInfoZero ∧
     vsanHostInfoZero =
       { capacityTiB := 0, totalDisks := 0, cacheDisks := 0, clusterType := "" }) :=
  ⟨rfl, claim8_storage_none env8 host8 (Or.inl rfl)⟩

theorem claim9_witness :
    host9.vsanSystem = true ∧ env9.retrieveVsanSystem = some cfg9 ∧
    cfg9.vsanEsaEnabled = some true ∧ env9.queryDisksForVsan = none ∧
    (hostVsanEntry env9 host9 =
       some { capacityTiB := 0, totalDisks := 0, cacheDisks := 0, clusterType := "ESA" } ∧
     (∀ (venv : ℕ → VsanEnv) (m : String → VsanHostInfoR) (i : ℕ),
       venv i = env9 → processVsanHost venv m i host9 host9.summary.name =
         { capacityTiB := 0, totalDisks := 0, cacheDisks := 0, clusterType := "ESA" })) :=
  ⟨rfl, rfl, rfl, rfl, claim9_esa_query_failure env9 host9 cfg9 rfl rfl rfl rfl⟩

theorem claim10_witness :
    hostVsanEntry envDup hostDupB = some infoDup ∧
    buildVsanInfo (fun _ => envDup) ([hostDupA] ++ [hostDupB])
      hostDupB.summary.name = infoDup ∧
    hostDupA.summary.name = hostDupB.summary.name ∧
    (∀ c, c = 9 ∨ c = 10 ∨ c = 11 ∨ c = 12 →
      ((buildRowsAux false [] [] (buildVsanInfo (fun _ => envDup) [hostDupA, hostDupB]) 0
          [hostDupA, hostDupB])[0]?.bind (fun r => r[c]?)) =
      ((buildRowsAux false [] [] (buildVsanInfo (fun _ => envDup) [hostDupA, hostDupB]) 0
          [hostDupA, hostDupB])[1]?.bind (fun r => r[c]?))) :=
  ⟨rfl,
   claim10_join_by_name.2 (fun _ => envDup) [hostDupA] hostDupB infoDup rfl,
   rfl,
   fun c hc =>
     claim10_join_by_name.1 false [] []
       (buildVsanInfo (fun _ => envDup) [hostDupA, hostDupB]) [hostDupA, hostDupB]
       0 1 hostDupA hostDupB rfl rfl rfl c hc⟩

theorem mapLookup_append_single_ne (p q nm : String) (pn : List (String × String))
    (hpq : p ≠ q) : mapLookup p (pn ++ [(q, nm)]) = mapLookup p pn := by
  rw [mapLookup_append]
  cases hm : mapLookup p pn <;> simp [mapLookup, hpq]

theorem mapLookup_append_single_eq (p nm : String) (pn : List (String × String))
    (hp : mapLookup p pn = none) : mapLookup p (pn ++ [(p, nm)]) = some nm := by
  rw [mapLookup_append, hp]
  simp [mapLookup]

/-- Exact call count of the resolver loop, for an arbitrary starting map:
no call for a back-reference already recorded; otherwise one call when the
resolver succeeds, and one call per host sharing the back-reference when it
fails (the failure is never recorded, so each later host retries). -/

theorem parentCallsAux_count (resolve : String → Option String) (p : String) :
    ∀ (hosts : List HostSystem) (pn : List (String × String)),
      (parentCallsAux resolve hosts pn).count p =
        if (mapLookup p pn).isSome then 0
        else
          match resolve p with
          | some _ =>
            if hosts.any (fun h => decide (h.parent = some p)) then 1 else 0
          | none => hosts.countP (fun h => decide (h.parent = some p)) := by
  intro hosts
  induction hosts with
  | nil =>
    intro pn
    cases hr : resolve p <;> simp [parentCallsAux, hr]
  | cons h t ih =>
    intro pn
    cases hp : h.parent with
    | none =>
      simp only [parentCallsAux, hp]
      rw [ih pn]
      have hfalse : (decide (h.parent = some p)) = false := by simp [hp]
      by_cases hlk : (mapLookup p pn).isSome
      · rw [if_pos hlk, if_pos hlk]
      · rw [if_neg hlk, if_neg hlk]
        cases hr : resolve p <;>
          simp [List.any_cons, List.countP_cons, hfalse]
    | some q =>
      by_cases hpq : p = q
      · subst hpq
        by_cases hlk : (mapLookup p pn).isSome
        · simp only [parentCallsAux, hp, if_pos hlk]
          rw [ih pn, if_pos hlk]
        · simp only [parentCallsAux, hp, if_neg hlk]
          have htrue : (decide (h.parent = some p)) = true := by simp [hp]
          cases hr : resolve p with
          | none =>
            rw [List.count_cons, ih pn, if_neg hlk, hr]
            simp [List.countP_cons, htrue]
          | some nm =>
            rw [List.count_cons, ih (pn ++ [(p, nm)]),
              mapLookup_append_single_eq p nm pn (Option.not_isSome_iff_eq_none.mp hlk)]
            simp [hr, List.any_cons, htrue]
      · have hfalse : (decide (h.parent = some p)) = false := by
          simp [hp]
          exact fun hbad => hpq hbad.symm
        have hbeq : (p == q) = false := by
          simp [hpq]
        have hqp : ¬q = p := fun e => hpq e.symm
        by_cases hlk : (mapLookup q pn).isSome
        · simp only [parentCallsAux, hp, if_pos hlk]
          rw [ih pn]
          by_cases hlp : (mapLookup p pn).isSome
          · rw [if_pos hlp, if_pos hlp]
          · rw [if_neg hlp, if_neg hlp]
            cases hr : resolve p <;>
              simp [List.any_cons, List.countP_cons, hfalse]
        · simp only [parentCallsAux, hp, if_neg hlk]
          cases hrq : resolve q with
          | none =>
            rw [List.count_cons, ih pn]
            by_cases hlp : (mapLookup p pn).isSome
            · rw [if_pos hlp, if_pos hlp]
              simp [hbeq, hqp]
            · rw [if_neg hlp, if_neg hlp]
              cases hr : resolve p <;>
                simp [List.any_cons, List.countP_cons, hfalse, hbeq, hqp]
          | some nm =>
            rw [List.count_cons, ih (pn ++ [(q, nm)]),
              mapLookup_append_single_ne p q nm pn hpq]
            by_cases hlp : (mapLookup p pn).isSome
            · rw [if_pos hlp, if_pos hlp]
              simp [hbeq, hqp]
            · rw [if_neg hlp, if_neg hlp]
              cases hr : resolve p <;>
                simp [List.any_cons, List.countP_cons, hfalse, hbeq, hqp]

/-- C1 as stated is false at a concrete input: two hosts share back-reference
"g", every resolution attempt fails, and the loop performs the external
resolution call for "g" twice — more than once. -/

theorem claim1_counterexample :
    ¬ ((parentCalls (fun _ => none) [hostG1, hostG2]).count "g" ≤ 1) := by
  decide

/-- C1 amended: the resolver call for a distinct back-reference is performed at
most once as long as resolution succeeds (exactly once when some host bears it);
when resolution fails, the call is retried for every host bearing that
back-reference — once per such host. -/

theorem claim1_amended (resolve : String → Option String) (hosts : List HostSystem)
    (p : String) :
    (parentCalls resolve hosts).count p =
      match resolve p with
      | some _ => if hosts.any (fun h => decide (h.parent = some p)) then 1 else 0
      | none => hosts.countP (fun h => decide (h.parent = some p)) := by
  have h := parentCallsAux_count resolve p hosts []
  simpa [parentCalls, mapLookup] using h

theorem mapLookup_snoc_isNone (x n l : String) (ac : List (String × String)) :
    (mapLookup x (ac ++ [(n, l)])).isNone =
      ((mapLookup x ac).isNone && decide (x ≠ n)) := by
  rw [mapLookup_append]
  cases hm : mapLookup x ac with
  | none =>
    by_cases hxn : x = n <;> simp [mapLookup, hxn]
  | some v => simp

theorem filter_and_split (p q : String → Bool) :
    ∀ l : List String, l.filter (fun x => p x && q x) = (l.filter p).filter q := by
  intro l
  induction l with
  | nil => rfl
  | cons a t ih =>
    by_cases hp : p a <;> by_cases hq : q a <;>
      simp [List.filter_cons, hp, hq, ih]

theorem buildAnonAux_eq (pn : List (String × String)) :
    ∀ (hosts : List HostSystem) (ac : List (String × String)) (idx : ℕ),
      buildAnonAux pn hosts ac idx =
        ac ++ labelFrom idx (firstOccur ((realNamesSeq pn hosts).filter
          (fun n => (mapLookup n ac).isNone))) := by
  intro hosts
  induction hosts with
  | nil =>
    intro ac idx
    simp [buildAnonAux, realNamesSeq, firstOccur, labelFrom]
  | cons h t ih =>
    intro ac idx
    cases hp : h.parent with
    | none =>
      simp only [buildAnonAux, hp, realNamesSeq]
      exact ih ac idx
    | some p =>
      simp only [buildAnonAux, hp, realNamesSeq]
      by_cases hin : (mapLookup ((mapLookup p pn).getD "") ac).isSome
      · rw [if_pos hin, ih ac idx]
        have hpred : ((mapLookup ((mapLookup p pn).getD "") ac).isNone) = false := by
          simp [Option.isNone_iff_eq_none]
          exact Option.isSome_iff_exists.mp hin |>.elim (fun v hv => by simp [hv])
        rw [List.filter_cons]
        simp [hpred]
      · rw [if_neg hin, ih (ac ++ [((mapLookup p pn).getD "",
          anonLabel (idx + 1))]) (idx + 1)]
        have hpred : ((mapLookup ((mapLookup p pn).getD "") ac).isNone) = true := by
          simp [Option.isNone_iff_eq_none, Option.not_isSome_iff_eq_none.mp hin]
        rw [List.filter_cons]
        simp only [hpred, if_true]
        have hfeq : (realNamesSeq pn t).filter
            (fun x => (mapLookup x (ac ++ [((mapLookup p pn).getD "",
              anonLabel (idx + 1))])).isNone) =
            ((realNamesSeq pn t).filter (fun x => (mapLookup x ac).isNone)).filter
              (fun x => decide (x ≠ (mapLookup p pn).getD "")) := by
          rw [← filter_and_split]
          apply List.filter_congr
          intro x _
          exact mapLookup_snoc_isNone x _ _ ac
        rw [hfeq]
        rw [firstOccur]
        simp only [labelFrom]
        rw [List.append_assoc]
        rfl

/-- The anonymization pass from an empty accumulator equals the ordered
first-encounter labelling. -/

theorem buildAnonClusters_char (pn : List (String × String)) (hosts : List HostSystem) :
    buildAnonClusters pn hosts = labelFrom 0 (firstOccur (realNamesSeq pn hosts)) := by
  unfold buildAnonClusters
  rw [buildAnonAux_eq]
  have : (realNamesSeq pn hosts).filter (fun n => (mapLookup n []).isNone) =
      realNamesSeq pn hosts := by
    apply List.filter_eq_self.mpr
    intro a _
    rfl
  rw [this]
  rfl

theorem labelFrom_lookup (n l : String) :
    ∀ (ns : List String) (idx : ℕ), mapLookup n (labelFrom idx ns) = some l →
      ∃ i, ns[i]? = some n ∧ l = anonLabel (idx + i + 1) := by
  intro ns
  induction ns with
  | nil => intro idx h; simp [labelFrom, mapLookup] at h
  | cons a t ih =>
    intro idx h
    simp only [labelFrom, mapLookup] at h
    by_cases hn : n = a
    · rw [if_pos hn] at h
      refine ⟨0, ?_, ?_⟩
      · simp [hn]
      · exact (Option.some.inj h).symm
    · rw [if_neg hn] at h
      obtain ⟨i, hg, hl⟩ := ih (idx + 1) h
      refine ⟨i + 1, by simpa using hg, ?_⟩
      rw [hl]
      congr 1
      omega

theorem labelFrom_lookup_isSome (n : String) :
    ∀ (ns : List String) (idx : ℕ), n ∈ ns →
      (mapLookup n (labelFrom idx ns)).isSome := by
  intro ns
  induction ns with
  | nil => intro idx h; simp at h
  | cons a t ih =>
    intro idx hmem
    simp only [labelFrom, mapLookup]
    by_cases hn : n = a
    · simp [hn]
    · rw [if_neg hn]
      exact ih (idx + 1) (by
        rcases List.mem_cons.mp hmem with h | h
        · exact absurd h hn
        · exact h)

theorem firstOccur_mem : ∀ (l : List String) (n : String), n ∈ firstOccur l ↔ n ∈ l := by
  intro l
  induction l using firstOccur.induct with
  | case1 => intro n; simp [firstOccur]
  | case2 a t ih =>
    intro n
    rw [firstOccur]
    by_cases hn : n = a
    · simp [hn]
    · simp only [List.mem_cons, hn, false_or]
      rw [ih n]
      simp [List.mem_filter, hn]

theorem realNamesSeq_mem (pn : List (String × String)) :
    ∀ (hosts : List HostSystem) (h : HostSystem) (p : String),
      h ∈ hosts → h.parent = some p →
      ((mapLookup p pn).getD "") ∈ realNamesSeq pn hosts := by
  intro hosts
  induction hosts with
  | nil => intro h p hmem; simp at hmem
  | cons x t ih =>
    intro h p hmem hp
    rcases List.mem_cons.mp hmem with heq | hmem'
    · subst heq
      simp [realNamesSeq, hp]
    · cases hx : x.parent with
      | none => simpa [realNamesSeq, hx] using ih h p hmem' hp
      | some q =>
        simp only [realNamesSeq, hx, List.mem_cons]
        exact Or.inr (ih h p hmem' hp)

/-- C6: anonymization is deterministic and injective within a run — the map is
exactly the first-encounter names of hosts (in host-list order) paired with
labels "Cluster 1", "Cluster 2", …, so the same real name always gets the same
label, distinct names get distinct labels, and label numbers strictly increase
from 1 in first-encounter order. -/

theorem claim6_anonymization (pn : List (String × String)) (hosts : List HostSystem) :
    buildAnonClusters pn hosts = labelFrom 0 (firstOccur (realNamesSeq pn hosts)) ∧
    (∀ n₁ n₂ l, mapLookup n₁ (buildAnonClusters pn hosts) = some l →
      mapLookup n₂ (buildAnonClusters pn hosts) = some l → n₁ = n₂) ∧
    (∀ n l, mapLookup n (buildAnonClusters pn hosts) = some l →
      ∃ i, (firstOccur (realNamesSeq pn hosts))[i]? = some n ∧ l = anonLabel (i + 1)) := by
  refine ⟨buildAnonClusters_char pn hosts, ?_, ?_⟩
  · intro n₁ n₂ l h₁ h₂
    rw [buildAnonClusters_char] at h₁ h₂
    obtain ⟨i₁, hg₁, hl₁⟩ := labelFrom_lookup n₁ l _ 0 h₁
    obtain ⟨i₂, hg₂, hl₂⟩ := labelFrom_lookup n₂ l _ 0 h₂
    have hi : i₁ = i₂ := by
      have heq : anonLabel (0 + i₁ + 1) = anonLabel (0 + i₂ + 1) := by
        rw [← hl₁, ← hl₂]
      have := anonLabel_inj heq
      omega
    rw [hi, hg₂] at hg₁
    exact (Option.some.inj hg₁).symm
  · intro n l h
    rw [buildAnonClusters_char] at h
    obtain ⟨i, hg, hl⟩ := labelFrom_lookup n l _ 0 h
    refine ⟨i, hg, ?_⟩
    rw [hl]
    congr 1
    omega

theorem claim6_witness :
    mapLookup "Alpha" (buildAnonClusters pn6 [host6a, host6b]) = some "Cluster 1" ∧
    (("Alpha" : String) = "Alpha") ∧
    (∃ i, (firstOccur (realNamesSeq pn6 [host6a, host6b]))[i]? = some "Beta" ∧
      ("Cluster 2" : String) = anonLabel (i + 1)) :=
  ⟨by decide,
   (claim6_anonymization pn6 [host6a, host6b]).2.1 "Alpha" "Alpha" "Cluster 1"
     (by decide) (by decide),
   (claim6_anonymization pn6 [host6a, host6b]).2.2 "Beta" "Cluster 2" (by decide)⟩

theorem buildParentNamesAux_not_resolved (resolve : String → Option String) (p : String)
    (hres : resolve p = none) :
    ∀ (hosts : List HostSystem) (pn : List (String × String)),
      mapLookup p pn = none →
      mapLookup p (buildParentNamesAux resolve hosts pn) = none := by
  intro hosts
  induction hosts with
  | nil => intro pn hpn; exact hpn
  | cons h t ih =>
    intro pn hpn
    cases hp : h.parent with
    | none => simpa [buildParentNamesAux, hp] using ih pn hpn
    | some q =>
      simp only [buildParentNamesAux, hp]
      by_cases hlk : (mapLookup q pn).isSome
      · rw [if_pos hlk]
        exact ih pn hpn
      · rw [if_neg hlk]
        cases hrq : resolve q with
        | none => exact ih pn hpn
        | some nm =>
          have hpq : p ≠ q := by
            intro e
            rw [e, hrq] at hres
            exact Option.noConfusion hres
          exact ih (pn ++ [(q, nm)])
            (by rw [mapLookup_append_single_ne p q nm pn hpq]; exact hpn)

theorem buildRow_cell1 (anonymize : Bool) (pn anon : List (String × String))
    (vinfo : String → VsanHostInfoR) (i : ℕ) (h : HostSystem) :
    (buildRow anonymize pn anon vinfo i h)[1]? =
      some (match h.parent with
        | none => ""
        | some p =>
          if anonymize then (mapLookup ((mapLookup p pn).getD "") anon).getD ""
          else (mapLookup p pn).getD "") := rfl

/-- C2 amended: when a host's group back-reference fails to resolve, the
rendered Cluster field is the empty string in normal mode; in anonymized mode
the host instead carries the synthetic label that the anonymization pass
assigned to the empty name (shared by every host whose group is unresolved),
which is never the empty string. The run continues and produces a row for every
host in both modes. -/

theorem claim2_amended (resolve : String → Option String) (venv : ℕ → VsanEnv)
    (hosts : List HostSystem) (i : ℕ) (h : HostSystem) (p : String)
    (hih : hosts[i]? = some h) (hp : h.parent = some p) (hres : resolve p = none) :
    ((runInventory false resolve venv hosts)[i]?.bind (fun r => r[1]?)) = some "" ∧
    (∃ l, ((runInventory true resolve venv hosts)[i]?.bind (fun r => r[1]?)) = some l ∧
      l ≠ "" ∧
      mapLookup "" (buildAnonClusters (buildParentNames resolve hosts) hosts) = some l) ∧
    (runInventory false resolve venv hosts).length = hosts.length ∧
    (runInventory true resolve venv hosts).length = hosts.length := by
  have hpn : mapLookup p (buildParentNames resolve hosts) = none :=
    buildParentNamesAux_not_resolved resolve p hres hosts [] rfl
  have hmem : h ∈ hosts := List.getElem?_mem hih
  have hreal : ((mapLookup p (buildParentNames resolve hosts)).getD "")
      ∈ realNamesSeq (buildParentNames resolve hosts) hosts :=
    realNamesSeq_mem (buildParentNames resolve hosts) hosts h p hmem hp
  have hreal' : ("" : String) ∈ realNamesSeq (buildParentNames resolve hosts) hosts := by
    rw [hpn] at hreal
    exact hreal
  have hfo : ("" : String) ∈ firstOccur (realNamesSeq (buildParentNames resolve hosts) hosts) :=
    (firstOccur_mem _ _).mpr hreal'
  have hsome : (mapLookup ""
      (buildAnonClusters (buildParentNames resolve hosts) hosts)).isSome := by
    rw [buildAnonClusters_char]
    exact labelFrom_lookup_isSome "" _ 0 hfo
  obtain ⟨l, hl⟩ := Option.isSome_iff_exists.mp hsome
  have hlform : ∃ j, l = anonLabel (j + 1) := by
    have h' := hl
    rw [buildAnonClusters_char] at h'
    obtain ⟨j, _, hj⟩ := labelFrom_lookup "" l _ 0 h'
    exact ⟨0 + j, by rw [hj]⟩
  obtain ⟨j, hjl⟩ := hlform
  refine ⟨?_, ⟨l, ?_, ?_, hl⟩, ?_, ?_⟩
  · show ((buildRowsAux false (buildParentNames resolve hosts) [] 
      (buildVsanInfo venv hosts) 0 hosts)[i]?.bind (fun r => r[1]?)) = some ""
    rw [buildRowsAux_getElem, hih]
    simp only [Option.map_some', Option.some_bind]
    rw [buildRow_cell1, hp]
    simp [hpn]
  · show ((buildRowsAux true (buildParentNames resolve hosts)
      (buildAnonClusters (buildParentNames resolve hosts) hosts)
      (buildVsanInfo venv hosts) 0 hosts)[i]?.bind (fun r => r[1]?)) = some l
    rw [buildRowsAux_getElem, hih]
    simp only [Option.map_some', Option.some_bind]
    rw [buildRow_cell1, hp]
    simp [hpn, hl]
  · rw [hjl]
    exact anonLabel_ne_empty (j + 1)
  · exact buildRowsAux_length _ _ _ _ hosts 0
  · exact buildRowsAux_length _ _ _ _ hosts 0

theorem claim2_amended_witness :
    ([hostG1] : List HostSystem)[0]? = some hostG1 ∧
    hostG1.parent = some "g" ∧
    (((runInventory false (fun _ => none) (fun _ => env8) [hostG1])[0]?.bind
        (fun r => r[1]?)) = some "" ∧
     (∃ l, ((runInventory true (fun _ => none) (fun _ => env8) [hostG1])[0]?.bind
        (fun r => r[1]?)) = some l ∧ l ≠ "" ∧
       mapLookup "" (buildAnonClusters
         (buildParentNames (fun _ => none) [hostG1]) [hostG1]) = some l) ∧
     (runInventory false (fun _ => none) (fun _ => env8) [hostG1]).length =
       ([hostG1] : List HostSystem).length ∧
     (runInventory true (fun _ => none) (fun _ => env8) [hostG1]).length =
       ([hostG1] : List HostSystem).length) :=
  ⟨rfl, rfl,
   claim2_amended (fun _ => none) (fun _ => env8) [hostG1] 0 hostG1 "g" rfl rfl rfl⟩

/-- C2 as stated is false at a concrete input: a single host whose group
back-reference "g" fails to resolve renders, in anonymized mode, the Cluster
field "Cluster 1" — not the empty string. -/

theorem claim2_counterexample :
    ((runInventory true (fun _ => none) (fun _ => env8) [hostG1])[0]?.bind
      (fun r => r[1]?)) = some "Cluster 1" ∧ ("Cluster 1" : String) ≠ "" := by
  refine ⟨by decide, by decide⟩

theorem round1HalfEven_bound (q : ℚ) (hq : 0 ≤ q) :
    |(round1HalfEven q : ℚ) - 10 * q| ≤ 1 / 2 := by
  have hs0 : (0 : ℚ) ≤ 10 * q := by positivity
  have hfl0 : 0 ≤ ⌊10 * q⌋ := Int.floor_nonneg.mpr hs0
  have hfle : ((⌊10 * q⌋ : ℤ) : ℚ) ≤ 10 * q := Int.floor_le _
  have hflt : 10 * q < ((⌊10 * q⌋ : ℤ) : ℚ) + 1 := Int.lt_floor_add_one _
  have htn : ((⌊10 * q⌋.toNat : ℤ)) = ⌊10 * q⌋ := Int.toNat_of_nonneg hfl0
  have htnq : ((⌊10 * q⌋.toNat : ℕ) : ℚ) = ((⌊10 * q⌋ : ℤ) : ℚ) := by
    exact_mod_cast congrArg (fun z : ℤ => (z : ℚ)) htn
  simp only [round1HalfEven]
  split_ifs with h1 h2 h3 <;>
    (rw [abs_le]; constructor <;> (push_cast [htn]; linarith [htnq]))

/-- C3 amended: the stored capacity is the raw byte count divided by 1024^4
(binary TiB), and the textual rendering is that value correctly rounded — not
truncated — to one decimal place: the rendered scaled digit value is within
one half of ten times the stored value. -/

theorem claim3_amended (cb : ℤ) (hcb : 0 ≤ cb) :
    capacityTiBOfBytes cb = (cb : ℚ) / 1024 ^ 4 ∧
    ∃ n : ℕ, formatTiB1 (capacityTiBOfBytes cb) =
        natToString (n / 10) ++ "." ++ natToString (n % 10) ∧
      |(n : ℚ) - 10 * capacityTiBOfBytes cb| ≤ 1 / 2 := by
  have hq0 : 0 ≤ capacityTiBOfBytes cb := by
    unfold capacityTiBOfBytes
    apply div_nonneg
    · exact_mod_cast hcb
    · norm_num
  constructor
  · unfold capacityTiBOfBytes
    norm_num
  · refine ⟨round1HalfEven (capacityTiBOfBytes cb), ?_,
      round1HalfEven_bound _ hq0⟩
    unfold formatTiB1
    rw [if_neg (not_lt.mpr hq0)]

theorem claim3_witness :
    (0 : ℤ) ≤ 2 ^ 39 ∧
    (capacityTiBOfBytes (2 ^ 39) = ((2 ^ 39 : ℤ) : ℚ) / 1024 ^ 4 ∧
     ∃ n : ℕ, formatTiB1 (capacityTiBOfBytes (2 ^ 39)) =
         natToString (n / 10) ++ "." ++ natToString (n % 10) ∧
       |(n : ℚ) - 10 * capacityTiBOfBytes (2 ^ 39)| ≤ 1 / 2) :=
  ⟨by norm_num, claim3_amended (2 ^ 39) (by norm_num)⟩

/-- C3 as stated is false at a concrete input: 31 * 2^35 bytes is exactly
31/32 = 0.96875 TiB; the code's `%.1f` rendering rounds it to "1.0", while the
claimed truncation to one decimal place would give "0.9". -/

theorem claim3_counterexample :
    formatTiB1 (capacityTiBOfBytes (31 * 2 ^ 35)) = "1.0" ∧
    truncFormat1 (capacityTiBOfBytes (31 * 2 ^ 35)) = "0.9" ∧
    ("1.0" : String) ≠ "0.9" := by
  have hval : capacityTiBOfBytes (31 * 2 ^ 35) = 31 / 32 := by
    unfold capacityTiBOfBytes
    norm_num
  have hfloor : ⌊(10 : ℚ) * (31 / 32)⌋ = 9 := by
    rw [Int.floor_eq_iff]
    norm_num
  refine ⟨?_, ?_, by decide⟩
  · rw [hval]
    unfold formatTiB1
    rw [if_neg (by norm_num)]
    have hr : round1HalfEven (31 / 32 : ℚ) = 10 := by
      simp only [round1HalfEven]
      rw [hfloor]
      rw [if_neg (by norm_num), if_pos (by norm_num)]
      decide
    rw [hr]
    decide
  · rw [hval]
    unfold truncFormat1
    rw [hfloor]
    decide
